import Mathlib

/-!
Verification of the amortization simulator of `mortgage_web_tool.py`.

The month-by-month loop of `calculate_mortgage_savings` works on Python floats;
it is embedded here over `ℚ` (exact field arithmetic), with the `while`
loop rendered as a fuel-indexed recursion returning `Option` (`none` means
the loop did not finish within the given fuel).  The analytic baseline
`npf.nper` is transcendental, so it is embedded over `ℝ` with `Real.log`.
-/

/-- The `prepayment_freq` argument: the UI passes `"monthly"` or `"yearly"`. -/
inductive PrepayFreq where
  | monthly : PrepayFreq
  | yearly : PrepayFreq
deriving DecidableEq

/-- The input arguments of `calculate_mortgage_savings` (except `verbose`). -/
structure LoanParams where
  initial_principal : ℚ
  monthly_payment : ℚ
  annual_rate : ℚ
  prepayment_amount : ℚ
  prepayment_freq : PrepayFreq
deriving DecidableEq

/-- Line 16: `monthly_rate = annual_rate / 12 / 100`. -/
def monthly_rate (p : LoanParams) : ℚ :=
  p.annual_rate / 12 / 100

/-- One entry of `history` (lines 50-54 of the source). -/
structure MonthRecord where
  month : ℕ
  remaining_principal : ℚ
  monthly_interest : ℚ
deriving DecidableEq

/-- The mutable loop state of `calculate_mortgage_savings` (lines 17-21),
plus the list of records echoed by `st.write` when `verbose` is set. -/
structure SimState where
  current_principal : ℚ
  total_interest : ℚ
  month_count : ℕ
  prepayment_month : ℕ
  history : List MonthRecord
  writes : List MonthRecord
deriving DecidableEq

/-- Lines 36-44: the amount subtracted for prepayment this month and the
updated `prepayment_month`, given the (already incremented) `month_count`
`m` and the current `prepayment_month` `pm`. -/
def prepayApplied (p : LoanParams) (m pm : ℕ) : ℚ × ℕ :=
  match p.prepayment_freq with
  | PrepayFreq.monthly => (p.prepayment_amount, pm)
  | PrepayFreq.yearly =>
      if (m - pm) % 12 = 0 then (p.prepayment_amount, m) else (0, pm)

/-- One iteration of the `while` loop (lines 27-57). -/
def stepOnce (p : LoanParams) (verbose : Bool) (s : SimState) : SimState :=
  let m := s.month_count + 1
  let mi := s.current_principal * monthly_rate p
  let c1 := s.current_principal - (p.monthly_payment - mi)
  let ap := prepayApplied p m s.prepayment_month
  let c2 := max (c1 - ap.1) 0
  let entry : MonthRecord := ⟨m, c2, mi⟩
  { current_principal := c2
    total_interest := s.total_interest + mi
    month_count := m
    prepayment_month := ap.2
    history := s.history ++ [entry]
    writes := if verbose then s.writes ++ [entry] else s.writes }

/-- The `while current_principal > 0` loop (line 26), fuel-indexed:
`none` means the loop had not exited after `fuel` iterations. -/
def runLoop (p : LoanParams) (verbose : Bool) : ℕ → SimState → Option SimState
  | 0, s => if 0 < s.current_principal then none else some s
  | fuel + 1, s =>
      if 0 < s.current_principal then runLoop p verbose fuel (stepOnce p verbose s)
      else some s

/-- Lines 17-21: the state just before the loop. -/
def initState (p : LoanParams) : SimState :=
  ⟨p.initial_principal, 0, 0, 0, [], []⟩

/-- The loop of `calculate_mortgage_savings` run from the initial state. -/
def simulateCore (p : LoanParams) (verbose : Bool) (fuel : ℕ) : Option SimState :=
  runLoop p verbose fuel (initState p)

/-- `npf.nper(rate, -pmt, pv)` on its real domain: the number of periods
retiring present value `pv` at rate `rate` with payment `pmt`; for
`rate = 0` it is `pv / pmt`, otherwise
`log (pmt / (pmt - pv * rate)) / log (1 + rate)`. -/
noncomputable def nper (rate pmt pv : ℝ) : ℝ :=
  if rate = 0 then pv / pmt
  else Real.log (pmt / (pmt - pv * rate)) / Real.log (1 + rate)

/-- Line 24: the baseline (no-prepayment) total interest,
`monthly_payment * nper(monthly_rate, -monthly_payment, initial_principal)
 - initial_principal`.  It is a function of the inputs only. -/
noncomputable def original_total_interest (p : LoanParams) : ℝ :=
  p.monthly_payment *
      nper (monthly_rate p) p.monthly_payment p.initial_principal -
    p.initial_principal

/-- The dict returned at lines 61-66. -/
structure SimResult where
  total_months : ℕ
  total_interest : ℚ
  interest_saved : ℝ
  history : List MonthRecord

/-- `calculate_mortgage_savings`: run the loop, then assemble the result
dict (lines 59-66); `none` when the loop does not finish within `fuel`. -/
noncomputable def calculate_mortgage_savings (p : LoanParams) (verbose : Bool)
    (fuel : ℕ) : Option SimResult :=
  (simulateCore p verbose fuel).map fun s =>
    ⟨s.month_count, s.total_interest,
      original_total_interest p - s.total_interest, s.history⟩

/-- `total_months` of a finished run, `0` for an unfinished one. -/
def monthsOr0 : Option SimState → ℕ
  | some s => s.month_count
  | none => 0

/-- `total_interest` of a finished run, `0` for an unfinished one. -/
def interestOr0 : Option SimState → ℚ
  | some s => s.total_interest
  | none => 0

/-- `history` of a finished run, `[]` for an unfinished one. -/
def historyOr : Option SimState → List MonthRecord
  | some s => s.history
  | none => []

/-- `interest_saved` of a finished run, `0` for an unfinished one. -/
noncomputable def savedOr0 : Option SimResult → ℝ
  | some r => r.interest_saved
  | none => 0

/-- The validation constraints of the spec (section 4.1). -/
def ValidParams (p : LoanParams) : Prop :=
  0 ≤ p.initial_principal ∧ 0 < p.monthly_payment ∧
    0 ≤ p.annual_rate ∧ 0 ≤ p.prepayment_amount

instance (p : LoanParams) : Decidable (ValidParams p) := by
  unfold ValidParams; infer_instance

/-- The amortizing-payment precondition: the first month's interest-only
charge is below the scheduled payment. -/
def Amortizing (p : LoanParams) : Prop :=
  p.initial_principal * monthly_rate p < p.monthly_payment

instance (p : LoanParams) : Decidable (Amortizing p) := by
  unfold Amortizing; infer_instance

/-- The loop never exits: no amount of fuel suffices. -/
def divergesCore (p : LoanParams) (verbose : Bool) : Prop :=
  ∀ fuel, simulateCore p verbose fuel = none

/-- A fuel budget sufficient for termination under the amortizing
precondition: the principal drops by at least
`monthly_payment - initial_principal * monthly_rate` every month. -/
def terminationFuel (p : LoanParams) : ℕ :=
  Nat.ceil (p.initial_principal /
    (p.monthly_payment - p.initial_principal * monthly_rate p))

/-- The un-clamped principal recurrence of a zero-prepayment run:
`rawP (n+1) = rawP n * (1 + monthly_rate) - monthly_payment`. -/
def rawP (p : LoanParams) : ℕ → ℚ
  | 0 => p.initial_principal
  | n + 1 => rawP p n * (1 + monthly_rate p) - p.monthly_payment

/-- Each record's interest is `r` times the balance before that month,
where the balance before the first listed record is `prev`; every
interest is non-negative. -/
def interestChain (r : ℚ) : ℚ → List MonthRecord → Prop
  | _, [] => True
  | prev, e :: t =>
      e.monthly_interest = prev * r ∧ 0 ≤ e.monthly_interest ∧
        interestChain r e.remaining_principal t

/-- `interestChain` strengthened with the balance `cur` after the last
listed record. -/
def chainEnds (r : ℚ) : ℚ → List MonthRecord → ℚ → Prop
  | prev, [], cur => cur = prev
  | prev, e :: t, cur =>
      e.monthly_interest = prev * r ∧ 0 ≤ e.monthly_interest ∧
        chainEnds r e.remaining_principal t cur

/-- Modelled from the spec (section 8, "Yearly cadence"): one loop
iteration in which the yearly prepayment is applied exactly when the
month index is a multiple of 12, instead of the code's
`(month_count - prepayment_month) % 12 == 0` test. -/
def stepSpecYearly (p : LoanParams) (verbose : Bool) (s : SimState) : SimState :=
  let m := s.month_count + 1
  let mi := s.current_principal * monthly_rate p
  let c1 := s.current_principal - (p.monthly_payment - mi)
  let ap : ℚ × ℕ :=
    if m % 12 = 0 then (p.prepayment_amount, m) else (0, s.prepayment_month)
  let c2 := max (c1 - ap.1) 0
  let entry : MonthRecord := ⟨m, c2, mi⟩
  { current_principal := c2
    total_interest := s.total_interest + mi
    month_count := m
    prepayment_month := ap.2
    history := s.history ++ [entry]
    writes := if verbose then s.writes ++ [entry] else s.writes }

/-- Modelled from the spec: the loop with the months-that-are-multiples-of-12
prepayment cadence. -/
def runLoopSpecYearly (p : LoanParams) (verbose : Bool) :
    ℕ → SimState → Option SimState
  | 0, s => if 0 < s.current_principal then none else some s
  | fuel + 1, s =>
      if 0 < s.current_principal then
        runLoopSpecYearly p verbose fuel (stepSpecYearly p verbose s)
      else some s

/-- Modelled from the spec: the whole simulation with the
multiples-of-12 prepayment cadence. -/
def simulateSpecYearly (p : LoanParams) (verbose : Bool) (fuel : ℕ) :
    Option SimState :=
  runLoopSpecYearly p verbose fuel (initState p)

/-- The non-amortizing input of spec section 8: principal 1,000,000,
payment 100, annual rate 20 %, no prepayment. -/
def c1params : LoanParams := ⟨1000000, 100, 20, 0, PrepayFreq.monthly⟩

/-- A valid amortizing input needing 100,000 months: principal 100,000,
payment 1, zero rate, no prepayment. -/
def c2params : LoanParams := ⟨100000, 1, 0, 0, PrepayFreq.monthly⟩

/-- Principal 100, payment 60, annual rate 600 %, prepayment 0.01 monthly:
a strictly positive prepayment with negative `interest_saved`. -/
def c5params : LoanParams := ⟨100, 60, 600, 1 / 100, PrepayFreq.monthly⟩

/-- Principal 100, payment 60, annual rate 600 %, no prepayment: the loop
interest exceeds the analytic baseline by more than 1. -/
def c6params : LoanParams := ⟨100, 60, 600, 0, PrepayFreq.monthly⟩

/-- A small amortizing zero-rate input used for concrete witnesses. -/
def wSmall : LoanParams := ⟨3, 1, 0, 0, PrepayFreq.monthly⟩

/-- A small yearly-prepayment input used for concrete witnesses. -/
def wYearly : LoanParams := ⟨24, 1, 0, 5, PrepayFreq.yearly⟩

/-- A zero-principal input used for concrete witnesses. -/
def wZero : LoanParams := ⟨0, 60, 5, 7, PrepayFreq.monthly⟩

lemma monthly_rate_nonneg (p : LoanParams) (h : 0 ≤ p.annual_rate) :
    0 ≤ monthly_rate p := by
  unfold monthly_rate; positivity

lemma runLoop_of_nonpos (p : LoanParams) (v : Bool) (fuel : ℕ) (s : SimState)
    (h : ¬ 0 < s.current_principal) : runLoop p v fuel s = some s := by
  cases fuel <;> simp [runLoop, h]

lemma runLoop_some_inv (p : LoanParams) (v : Bool) (P : SimState → Prop)
    (hstep : ∀ s, 0 < s.current_principal → P s → P (stepOnce p v s)) :
    ∀ fuel s res, P s → runLoop p v fuel s = some res → P res := by
  intro fuel
  induction fuel with
  | zero =>
    intro s res hP h
    by_cases hs : 0 < s.current_principal
    · simp [runLoop, hs] at h
    · simp [runLoop, hs] at h; exact h ▸ hP
  | succ n ih =>
    intro s res hP h
    by_cases hs : 0 < s.current_principal
    · simp only [runLoop, if_pos hs] at h
      exact ih _ _ (hstep s hs hP) h
    · simp [runLoop, hs] at h; exact h ▸ hP

lemma prepayApplied_fst_nonneg (p : LoanParams) (m pm : ℕ)
    (h : 0 ≤ p.prepayment_amount) : 0 ≤ (prepayApplied p m pm).1 := by
  cases hf : p.prepayment_freq <;> simp [prepayApplied, hf]
  · exact h
  · split <;> simp [h]

lemma prepayApplied_fst_le (p : LoanParams) (m pm : ℕ)
    (h : 0 ≤ p.prepayment_amount) :
    (prepayApplied p m pm).1 ≤ p.prepayment_amount := by
  cases hf : p.prepayment_freq <;> simp [prepayApplied, hf]
  split <;> simp [h]

lemma prepayApplied_fst_of_zero (p : LoanParams) (m pm : ℕ)
    (h : p.prepayment_amount = 0) : (prepayApplied p m pm).1 = 0 := by
  cases hf : p.prepayment_freq <;> simp [prepayApplied, hf, h]
  split <;> simp

lemma stepOnce_principal (p : LoanParams) (v : Bool) (s : SimState) :
    (stepOnce p v s).current_principal =
      max (s.current_principal * (1 + monthly_rate p) - p.monthly_payment -
        (prepayApplied p (s.month_count + 1) s.prepayment_month).1) 0 := by
  simp only [stepOnce]
  congr 1
  ring

lemma stepOnce_month (p : LoanParams) (v : Bool) (s : SimState) :
    (stepOnce p v s).month_count = s.month_count + 1 := rfl

lemma runLoop_none_of_ge (p : LoanParams) (v : Bool)
    (hr : 0 ≤ monthly_rate p) (ha : 0 ≤ p.prepayment_amount)
    (hp0 : 0 < p.initial_principal)
    (hge : p.monthly_payment + p.prepayment_amount ≤
      p.initial_principal * monthly_rate p) :
    ∀ fuel s, p.initial_principal ≤ s.current_principal →
      runLoop p v fuel s = none := by
  intro fuel
  induction fuel with
  | zero =>
    intro s hs
    have hpos : 0 < s.current_principal := lt_of_lt_of_le hp0 hs
    simp [runLoop, hpos]
  | succ n ih =>
    intro s hs
    have hpos : 0 < s.current_principal := lt_of_lt_of_le hp0 hs
    simp only [runLoop, if_pos hpos]
    apply ih
    rw [stepOnce_principal]
    have hA := prepayApplied_fst_le p (s.month_count + 1) s.prepayment_month ha
    have hsr : p.initial_principal * monthly_rate p ≤
        s.current_principal * monthly_rate p :=
      mul_le_mul_of_nonneg_right hs hr
    have hexp : s.current_principal * (1 + monthly_rate p) =
        s.current_principal + s.current_principal * monthly_rate p := by ring
    have h1 : p.initial_principal ≤
        s.current_principal * (1 + monthly_rate p) - p.monthly_payment -
          (prepayApplied p (s.month_count + 1) s.prepayment_month).1 := by
      rw [hexp]; linarith
    exact le_trans h1 (le_max_left _ _)

/-- C1 (amended): the code performs no analytic pre-check and has no error
values; whenever the principal is positive and the first month's interest
covers the scheduled payment plus the prepayment, the `while` loop never
terminates: `simulateCore` yields `none` for every fuel. -/
theorem claim_c1 (p : LoanParams) (v : Bool)
    (hp0 : 0 < p.initial_principal) (hr : 0 ≤ p.annual_rate)
    (ha : 0 ≤ p.prepayment_amount)
    (hge : p.monthly_payment + p.prepayment_amount ≤
      p.initial_principal * monthly_rate p) :
    divergesCore p v := by
  intro fuel
  exact runLoop_none_of_ge p v (monthly_rate_nonneg p hr) ha hp0 hge fuel
    (initState p) (le_refl _)

/-- C1 counterexample: for principal 1,000,000, payment 100, annual rate
20 %, the call does hang — the loop yields `none` for every fuel — instead
of returning a `NonAmortizingPaymentError` (the code has no error values
at all). -/
theorem claim_c1_counterexample : divergesCore c1params false := by
  intro fuel
  refine runLoop_none_of_ge c1params false ?_ ?_ ?_ ?_ fuel (initState c1params)
    (le_refl _) <;> norm_num [c1params, monthly_rate]

/-- C1 witness: the amended theorem applied at the spec's concrete
non-amortizing input. -/
theorem claim_c1_witness :
    ((0 : ℚ) < c1params.initial_principal ∧ (0 : ℚ) ≤ c1params.annual_rate ∧
      (0 : ℚ) ≤ c1params.prepayment_amount ∧
      c1params.monthly_payment + c1params.prepayment_amount ≤
        c1params.initial_principal * monthly_rate c1params) ∧
    divergesCore c1params true := by
  have h1 : (0 : ℚ) < c1params.initial_principal := by norm_num [c1params]
  have h2 : (0 : ℚ) ≤ c1params.annual_rate := by norm_num [c1params]
  have h3 : (0 : ℚ) ≤ c1params.prepayment_amount := by norm_num [c1params]
  have h4 : c1params.monthly_payment + c1params.prepayment_amount ≤
      c1params.initial_principal * monthly_rate c1params := by
    norm_num [c1params, monthly_rate]
  exact ⟨⟨h1, h2, h3, h4⟩, claim_c1 c1params true h1 h2 h3 h4⟩

lemma stepOnce_principal_zero_prepay (p : LoanParams) (v : Bool) (s : SimState)
    (h : p.prepayment_amount = 0) :
    (stepOnce p v s).current_principal =
      max (s.current_principal * (1 + monthly_rate p) - p.monthly_payment) 0 := by
  rw [stepOnce_principal, prepayApplied_fst_of_zero p _ _ h, sub_zero]

lemma runLoop_rawP_char (p : LoanParams) (v : Bool)
    (h0 : p.prepayment_amount = 0) :
    ∀ fuel n s res, s.month_count = n →
      s.current_principal = max (rawP p n) 0 →
      runLoop p v fuel s = some res →
      rawP p res.month_count ≤ 0 ∧ n ≤ res.month_count ∧
        ∀ j, n ≤ j → j < res.month_count → 0 < rawP p j := by
  intro fuel
  induction fuel with
  | zero =>
    intro n s res hm hp h
    by_cases hs : 0 < s.current_principal
    · simp [runLoop, hs] at h
    · simp [runLoop, hs] at h
      subst h
      push_neg at hs
      rw [hm]
      refine ⟨?_, le_refl _, ?_⟩
      · have : rawP p n ≤ max (rawP p n) 0 := le_max_left _ _
        rw [← hp] at this
        exact le_trans this hs
      · intro j hj1 hj2; omega
  | succ fl ih =>
    intro n s res hm hp h
    by_cases hs : 0 < s.current_principal
    · have hraw : 0 < rawP p n := by
        by_contra hneg
        push_neg at hneg
        rw [hp, max_eq_right hneg] at hs
        exact lt_irrefl 0 hs
      simp only [runLoop, if_pos hs] at h
      have hm' : (stepOnce p v s).month_count = n + 1 := by
        rw [stepOnce_month, hm]
      have hp' : (stepOnce p v s).current_principal = max (rawP p (n + 1)) 0 := by
        rw [stepOnce_principal_zero_prepay p v s h0, hp,
          max_eq_left (le_of_lt hraw)]
        simp [rawP]
      obtain ⟨h1, h2, h3⟩ := ih (n + 1) _ res hm' hp' h
      refine ⟨h1, by omega, ?_⟩
      intro j hj1 hj2
      rcases eq_or_lt_of_le hj1 with he | hl
      · rw [← he]; exact hraw
      · exact h3 j (by omega) hj2
    · simp [runLoop, hs] at h
      subst h
      push_neg at hs
      rw [hm]
      refine ⟨?_, le_refl _, ?_⟩
      · have : rawP p n ≤ max (rawP p n) 0 := le_max_left _ _
        rw [← hp] at this
        exact le_trans this hs
      · intro j hj1 hj2; omega

lemma runLoop_none_rawP (p : LoanParams) (v : Bool)
    (h0 : p.prepayment_amount = 0) :
    ∀ fuel n s, s.month_count = n →
      s.current_principal = max (rawP p n) 0 →
      (∀ j, n ≤ j → j ≤ n + fuel → 0 < rawP p j) →
      runLoop p v fuel s = none := by
  intro fuel
  induction fuel with
  | zero =>
    intro n s hm hp hj
    have hraw : 0 < rawP p n := hj n (le_refl _) (by omega)
    have hs : 0 < s.current_principal := by
      rw [hp, max_eq_left (le_of_lt hraw)]; exact hraw
    simp [runLoop, hs]
  | succ fl ih =>
    intro n s hm hp hj
    have hraw : 0 < rawP p n := hj n (le_refl _) (by omega)
    have hs : 0 < s.current_principal := by
      rw [hp, max_eq_left (le_of_lt hraw)]; exact hraw
    simp only [runLoop, if_pos hs]
    apply ih (n + 1)
    · rw [stepOnce_month, hm]
    · rw [stepOnce_principal_zero_prepay p v s h0, hp,
        max_eq_left (le_of_lt hraw)]
      simp [rawP]
    · intro j hj1 hj2
      exact hj j (by omega) (by omega)

lemma runLoop_isSome_of_fuel (p : LoanParams) (v : Bool)
    (hv : ValidParams p) (ham : Amortizing p) :
    ∀ (fuel : ℕ) (s : SimState), s.current_principal ≤ p.initial_principal →
      s.current_principal ≤ (fuel : ℚ) *
        (p.monthly_payment - p.initial_principal * monthly_rate p) →
      (runLoop p v fuel s).isSome = true := by
  obtain ⟨hp0, hM, hr, ha⟩ := hv
  have hrm : 0 ≤ monthly_rate p := monthly_rate_nonneg p hr
  have hδ : 0 < p.monthly_payment - p.initial_principal * monthly_rate p :=
    sub_pos.mpr ham
  intro fuel
  induction fuel with
  | zero =>
    intro s hle hb
    have hs : ¬ 0 < s.current_principal := by
      norm_num at hb
      exact not_lt.mpr hb
    rw [runLoop_of_nonpos p v 0 s hs]
    rfl
  | succ n ih =>
    intro s hle hb
    push_cast at hb
    by_cases hs : 0 < s.current_principal
    · simp only [runLoop, if_pos hs]
      have hA : 0 ≤ (prepayApplied p (s.month_count + 1) s.prepayment_month).1 :=
        prepayApplied_fst_nonneg p _ _ ha
      have hsr : s.current_principal * monthly_rate p ≤
          p.initial_principal * monthly_rate p :=
        mul_le_mul_of_nonneg_right hle hrm
      have hkey : (stepOnce p v s).current_principal ≤
          max (s.current_principal -
            (p.monthly_payment - p.initial_principal * monthly_rate p)) 0 := by
        rw [stepOnce_principal]
        apply max_le_max _ (le_refl _)
        have : s.current_principal * (1 + monthly_rate p) =
            s.current_principal + s.current_principal * monthly_rate p := by ring
        rw [this]
        linarith
      apply ih
      · refine le_trans hkey (max_le ?_ hp0)
        linarith
      · refine le_trans hkey (max_le ?_ ?_)
        · linarith
        · positivity
    · rw [runLoop_of_nonpos p v _ s hs]
      rfl

/-- C2 (amended): for every input satisfying the validation constraints
and the amortizing precondition, the loop terminates, within
`terminationFuel` months; the code itself has no 12,000-month ceiling and
no `SimulationDivergedError`. -/
theorem claim_c2 (p : LoanParams) (v : Bool)
    (hv : ValidParams p) (ham : Amortizing p) :
    (simulateCore p v (terminationFuel p)).isSome = true := by
  have hδ : 0 < p.monthly_payment - p.initial_principal * monthly_rate p :=
    sub_pos.mpr ham
  apply runLoop_isSome_of_fuel p v hv ham (terminationFuel p) (initState p)
    (le_refl _)
  show p.initial_principal ≤ _
  have hceil := Nat.le_ceil (p.initial_principal /
    (p.monthly_payment - p.initial_principal * monthly_rate p))
  rw [div_le_iff₀ hδ] at hceil
  exact hceil

lemma rawP_c2 (n : ℕ) : rawP c2params n = 100000 - (n : ℚ) := by
  induction n with
  | zero => simp [rawP, c2params]
  | succ k ih =>
    show rawP c2params k * (1 + monthly_rate c2params) - c2params.monthly_payment = _
    rw [ih]
    norm_num [monthly_rate, c2params]
    ring

lemma initState_c2_principal :
    (initState c2params).current_principal = max (rawP c2params 0) 0 := by
  norm_num [initState, c2params, rawP]

/-- C2 counterexample: for principal 100,000, payment 1, zero rate
(valid and amortizing), the loop is still running after 12,000 iterations,
and then finishes normally at month 100,000 — the code neither returns
within the spec's 12,000-month ceiling nor ever produces a
`SimulationDivergedError`. -/
theorem claim_c2_counterexample :
    simulateCore c2params false 12000 = none ∧
    (simulateCore c2params false 100000).isSome = true ∧
    monthsOr0 (simulateCore c2params false 100000) = 100000 := by
  have h0 : c2params.prepayment_amount = 0 := rfl
  have hsome : (simulateCore c2params false 100000).isSome = true := by
    apply runLoop_isSome_of_fuel c2params false ?_ ?_ 100000 (initState c2params)
      (le_refl _)
    · show c2params.initial_principal ≤ _
      norm_num [c2params, monthly_rate]
    · constructor <;> norm_num [c2params]
    · show c2params.initial_principal * monthly_rate c2params <
        c2params.monthly_payment
      norm_num [c2params, monthly_rate]
  refine ⟨?_, hsome, ?_⟩
  · apply runLoop_none_rawP c2params false h0 12000 0 (initState c2params) rfl
      initState_c2_principal
    intro j hj1 hj2
    rw [rawP_c2]
    have hj : (j : ℚ) ≤ 12000 := by exact_mod_cast by omega
    linarith
  · obtain ⟨s, hs⟩ := Option.isSome_iff_exists.mp hsome
    obtain ⟨h1, _, h3⟩ := runLoop_rawP_char c2params false h0 100000 0
      (initState c2params) s rfl initState_c2_principal hs
    rw [show simulateCore c2params false 100000 =
      some s from hs]
    show s.month_count = 100000
    rw [rawP_c2] at h1
    have hge : 100000 ≤ s.month_count := by
      by_contra hc
      push_neg at hc
      have : (s.month_count : ℚ) < 100000 := by exact_mod_cast hc
      linarith
    rcases eq_or_lt_of_le hge with he | hl
    · omega
    · exfalso
      have := h3 100000 (by omega) hl
      rw [rawP_c2] at this
      norm_num at this

/-- C2 witness: the amended termination theorem applied at a small
concrete valid amortizing input. -/
theorem claim_c2_witness :
    ValidParams wSmall ∧ Amortizing wSmall ∧
      (simulateCore wSmall false (terminationFuel wSmall)).isSome = true := by
  have hv : ValidParams wSmall := by constructor <;> norm_num [wSmall]
  have ham : Amortizing wSmall := by
    show wSmall.initial_principal * monthly_rate wSmall < wSmall.monthly_payment
    norm_num [wSmall, monthly_rate]
  exact ⟨hv, ham, claim_c2 wSmall false hv ham⟩

lemma stepOnce_history (p : LoanParams) (v : Bool) (s : SimState) :
    (stepOnce p v s).history = s.history ++
      [⟨s.month_count + 1, (stepOnce p v s).current_principal,
        s.current_principal * monthly_rate p⟩] := rfl

lemma stepOnce_principal_le (p : LoanParams) (v : Bool) (s : SimState)
    (hv : ValidParams p) (ham : Amortizing p)
    (h1 : s.current_principal ≤ p.initial_principal)
    (h2 : 0 ≤ s.current_principal) :
    (stepOnce p v s).current_principal ≤ s.current_principal := by
  obtain ⟨hp0, hM, hr, ha⟩ := hv
  have hrm : 0 ≤ monthly_rate p := monthly_rate_nonneg p hr
  rw [stepOnce_principal]
  apply max_le _ h2
  have hA : 0 ≤ (prepayApplied p (s.month_count + 1) s.prepayment_month).1 :=
    prepayApplied_fst_nonneg p _ _ ha
  have hsr : s.current_principal * monthly_rate p ≤
      p.initial_principal * monthly_rate p :=
    mul_le_mul_of_nonneg_right h1 hrm
  have hexp : s.current_principal * (1 + monthly_rate p) =
      s.current_principal + s.current_principal * monthly_rate p := by ring
  rw [hexp]
  have := ham
  unfold Amortizing at this
  linarith

lemma stepOnce_principal_nonneg (p : LoanParams) (v : Bool) (s : SimState) :
    0 ≤ (stepOnce p v s).current_principal := by
  rw [stepOnce_principal]; exact le_max_right _ _

/-- C3 (confirmed): under the validation constraints and the amortizing
precondition, the `remaining_principal` values of `history` are
non-increasing month over month and all non-negative. -/
theorem claim_c3 (p : LoanParams) (v : Bool) (fuel : ℕ)
    (hv : ValidParams p) (ham : Amortizing p)
    (hs : (simulateCore p v fuel).isSome = true) :
    List.Chain' (fun a b => b ≤ a)
      ((historyOr (simulateCore p v fuel)).map MonthRecord.remaining_principal) ∧
    ∀ e ∈ historyOr (simulateCore p v fuel), 0 ≤ e.remaining_principal := by
  obtain ⟨res, hres⟩ := Option.isSome_iff_exists.mp hs
  have key := runLoop_some_inv p v (fun s =>
      s.current_principal ≤ p.initial_principal ∧ 0 ≤ s.current_principal ∧
      List.Chain' (fun a b => b ≤ a)
        (s.history.map MonthRecord.remaining_principal) ∧
      (∀ e ∈ s.history, 0 ≤ e.remaining_principal) ∧
      (∀ e ∈ s.history.getLast?, e.remaining_principal = s.current_principal))
    ?_ fuel (initState p) res ?_ hres
  · rw [show simulateCore p v fuel = some res from hres]
    exact ⟨key.2.2.1, key.2.2.2.1⟩
  · intro s hpos hP
    obtain ⟨h1, h2, h3, h4, h5⟩ := hP
    have hle := stepOnce_principal_le p v s hv ham h1 h2
    have hnn := stepOnce_principal_nonneg p v s
    refine ⟨le_trans hle h1, hnn, ?_, ?_, ?_⟩
    · rw [stepOnce_history, List.map_append]
      apply List.chain'_append.mpr
      refine ⟨h3, List.chain'_singleton _, ?_⟩
      intro x hx y hy
      simp only [List.map_cons, List.map_nil, List.head?_cons,
        Option.mem_def, Option.some.injEq] at hy
      rw [List.getLast?_map] at hx
      simp only [Option.mem_def, Option.map_eq_some'] at hx
      obtain ⟨e, he, hxe⟩ := hx
      rw [← hy, ← hxe]
      rw [h5 e he]
      exact hle
    · intro e he
      rw [stepOnce_history] at he
      rcases List.mem_append.mp he with hold | hnew
      · exact h4 e hold
      · simp only [List.mem_singleton] at hnew
        rw [hnew]
        exact hnn
    · intro e he
      rw [stepOnce_history, List.getLast?_concat] at he
      simp only [Option.mem_def, Option.some.injEq] at he
      rw [← he]
  · refine ⟨le_refl _, hv.1, ?_, ?_, ?_⟩ <;> simp [initState]

/-- C3 witness: the theorem applied at a concrete amortizing run. -/
theorem claim_c3_witness :
    ValidParams c6params ∧ Amortizing c6params ∧
      (simulateCore c6params false 10).isSome = true ∧
      (List.Chain' (fun a b => b ≤ a)
        ((historyOr (simulateCore c6params false 10)).map
          MonthRecord.remaining_principal) ∧
      ∀ e ∈ historyOr (simulateCore c6params false 10),
        0 ≤ e.remaining_principal) := by
  have hv : ValidParams c6params := by constructor <;> norm_num [c6params]
  have ham : Amortizing c6params := by
    show c6params.initial_principal * monthly_rate c6params <
      c6params.monthly_payment
    norm_num [c6params, monthly_rate]
  have hsome : (simulateCore c6params false 10).isSome = true := by
    apply runLoop_isSome_of_fuel c6params false hv ham 10 (initState c6params)
      (le_refl _)
    show c6params.initial_principal ≤ _
    norm_num [c6params, monthly_rate]
  exact ⟨hv, ham, hsome, claim_c3 c6params false 10 hv ham hsome⟩

lemma prepayApplied_yearly (p : LoanParams) (m pm : ℕ)
    (hf : p.prepayment_freq = PrepayFreq.yearly) :
    prepayApplied p m pm =
      if (m - pm) % 12 = 0 then (p.prepayment_amount, m) else (0, pm) := by
  unfold prepayApplied
  rw [hf]

lemma stepOnce_eq_specYearly (p : LoanParams) (v : Bool) (s : SimState)
    (hf : p.prepayment_freq = PrepayFreq.yearly)
    (hpm : s.prepayment_month % 12 = 0)
    (hle : s.prepayment_month ≤ s.month_count) :
    stepOnce p v s = stepSpecYearly p v s := by
  have hap : prepayApplied p (s.month_count + 1) s.prepayment_month =
      if (s.month_count + 1) % 12 = 0
        then (p.prepayment_amount, s.month_count + 1)
        else (0, s.prepayment_month) := by
    rw [prepayApplied_yearly p _ _ hf]
    have hcond : ((s.month_count + 1) - s.prepayment_month) % 12 = 0 ↔
        (s.month_count + 1) % 12 = 0 := by omega
    by_cases h : (s.month_count + 1) % 12 = 0
    · rw [if_pos (hcond.mpr h), if_pos h]
    · rw [if_neg (fun hc => h (hcond.mp hc)), if_neg h]
  simp only [stepOnce, stepSpecYearly, hap]

lemma stepOnce_pm_yearly_inv (p : LoanParams) (v : Bool) (s : SimState)
    (hf : p.prepayment_freq = PrepayFreq.yearly)
    (hpm : s.prepayment_month % 12 = 0)
    (hle : s.prepayment_month ≤ s.month_count) :
    (stepOnce p v s).prepayment_month % 12 = 0 ∧
      (stepOnce p v s).prepayment_month ≤ (stepOnce p v s).month_count := by
  show (prepayApplied p (s.month_count + 1) s.prepayment_month).2 % 12 = 0 ∧
    (prepayApplied p (s.month_count + 1) s.prepayment_month).2 ≤
      s.month_count + 1
  rw [prepayApplied_yearly p _ _ hf]
  by_cases h : ((s.month_count + 1) - s.prepayment_month) % 12 = 0
  · rw [if_pos h]
    constructor
    · show (s.month_count + 1) % 12 = 0
      omega
    · exact le_refl _
  · rw [if_neg h]
    exact ⟨hpm, by omega⟩

lemma runLoop_eq_specYearly (p : LoanParams) (v : Bool)
    (hf : p.prepayment_freq = PrepayFreq.yearly) :
    ∀ fuel s, s.prepayment_month % 12 = 0 →
      s.prepayment_month ≤ s.month_count →
      runLoop p v fuel s = runLoopSpecYearly p v fuel s := by
  intro fuel
  induction fuel with
  | zero =>
    intro s hpm hle
    simp [runLoop, runLoopSpecYearly]
  | succ n ih =>
    intro s hpm hle
    by_cases hs : 0 < s.current_principal
    · simp only [runLoop, runLoopSpecYearly, if_pos hs]
      rw [← stepOnce_eq_specYearly p v s hf hpm hle]
      obtain ⟨h1, h2⟩ := stepOnce_pm_yearly_inv p v s hf hpm hle
      exact ih _ h1 h2
    · simp [runLoop, runLoopSpecYearly, hs]

/-- C4 (confirmed): with yearly prepayment frequency, the code's
`(month_count - prepayment_month) % 12 == 0` bookkeeping is exactly the
spec's cadence: the whole simulation coincides with the one that applies
the prepayment precisely in the months whose index is a (positive)
multiple of 12 and in no other month. -/
theorem claim_c4 (p : LoanParams) (v : Bool) (fuel : ℕ)
    (hf : p.prepayment_freq = PrepayFreq.yearly) :
    simulateCore p v fuel = simulateSpecYearly p v fuel := by
  apply runLoop_eq_specYearly p v hf fuel (initState p)
  · rfl
  · exact le_refl _

/-- C4 witness: the refinement theorem applied at a concrete yearly run. -/
theorem claim_c4_witness :
    wYearly.prepayment_freq = PrepayFreq.yearly ∧
      simulateCore wYearly false 30 = simulateSpecYearly wYearly false 30 :=
  ⟨rfl, claim_c4 wYearly false 30 rfl⟩

lemma chainEnds_append (r : ℚ) :
    ∀ (l : List MonthRecord) (a b : ℚ) (e : MonthRecord),
      chainEnds r a l b → e.monthly_interest = b * r →
      0 ≤ e.monthly_interest →
      chainEnds r a (l ++ [e]) e.remaining_principal := by
  intro l
  induction l with
  | nil =>
    intro a b e hc hi hn
    have hb : b = a := hc
    rw [← hb]
    exact ⟨hi, hn, rfl⟩
  | cons hd tl ih =>
    intro a b e hc hi hn
    obtain ⟨h1, h2, h3⟩ := hc
    exact ⟨h1, h2, ih _ _ e h3 hi hn⟩

lemma chainEnds_to_chain (r : ℚ) :
    ∀ (l : List MonthRecord) (a b : ℚ),
      chainEnds r a l b → interestChain r a l := by
  intro l
  induction l with
  | nil => intro a b _; trivial
  | cons hd tl ih =>
    intro a b hc
    exact ⟨hc.1, hc.2.1, ih _ _ hc.2.2⟩

lemma stepOnce_total_interest (p : LoanParams) (v : Bool) (s : SimState) :
    (stepOnce p v s).total_interest =
      s.total_interest + s.current_principal * monthly_rate p := rfl

/-- C8 (confirmed): with a non-negative annual rate, every recorded
`monthly_interest` is non-negative and equals the remaining balance at
the start of that month (the previous record's `remaining_principal`, or
`initial_principal` for month 1) times `monthly_rate`. -/
theorem claim_c8 (p : LoanParams) (v : Bool) (fuel : ℕ)
    (hr : 0 ≤ p.annual_rate)
    (hs : (simulateCore p v fuel).isSome = true) :
    interestChain (monthly_rate p) p.initial_principal
      (historyOr (simulateCore p v fuel)) := by
  have hrm : 0 ≤ monthly_rate p := monthly_rate_nonneg p hr
  obtain ⟨res, hres⟩ := Option.isSome_iff_exists.mp hs
  have key := runLoop_some_inv p v (fun s =>
      chainEnds (monthly_rate p) p.initial_principal s.history
        s.current_principal)
    ?_ fuel (initState p) res rfl hres
  · rw [show simulateCore p v fuel = some res from hres]
    exact chainEnds_to_chain _ _ _ _ key
  · intro s hpos hP
    have hmi : (0 : ℚ) ≤ s.current_principal * monthly_rate p :=
      mul_nonneg (le_of_lt hpos) hrm
    have := chainEnds_append (monthly_rate p) s.history p.initial_principal
      s.current_principal
      ⟨s.month_count + 1, (stepOnce p v s).current_principal,
        s.current_principal * monthly_rate p⟩ hP rfl hmi
    rw [← stepOnce_history] at this
    exact this

/-- C8 witness: the theorem applied at a concrete positive-rate run. -/
theorem claim_c8_witness :
    (0 : ℚ) ≤ c6params.annual_rate ∧
      (simulateCore c6params false 10).isSome = true ∧
      interestChain (monthly_rate c6params) c6params.initial_principal
        (historyOr (simulateCore c6params false 10)) := by
  have hr : (0 : ℚ) ≤ c6params.annual_rate := by norm_num [c6params]
  have hsome : (simulateCore c6params false 10).isSome = true := by
    apply runLoop_isSome_of_fuel c6params false ?_ ?_ 10 (initState c6params)
      (le_refl _)
    · show c6params.initial_principal ≤ _
      norm_num [c6params, monthly_rate]
    · constructor <;> norm_num [c6params]
    · show c6params.initial_principal * monthly_rate c6params <
        c6params.monthly_payment
      norm_num [c6params, monthly_rate]
  exact ⟨hr, hsome, claim_c8 c6params false 10 hr hsome⟩

/-- C9 (confirmed): for every finished run, `total_months` is the length
of `history`, `total_interest` is the sum of the recorded
`monthly_interest` values, and `interest_saved` is
`original_total_interest` (a function of the inputs alone, fixed before
the loop) minus `total_interest`. -/
theorem claim_c9 (p : LoanParams) (v : Bool) (fuel : ℕ)
    (hs : (simulateCore p v fuel).isSome = true) :
    monthsOr0 (simulateCore p v fuel) =
      (historyOr (simulateCore p v fuel)).length ∧
    (interestOr0 (simulateCore p v fuel) : ℚ) =
      ((historyOr (simulateCore p v fuel)).map MonthRecord.monthly_interest).sum ∧
    savedOr0 (calculate_mortgage_savings p v fuel) =
      original_total_interest p - (interestOr0 (simulateCore p v fuel) : ℝ) := by
  obtain ⟨res, hres⟩ := Option.isSome_iff_exists.mp hs
  have key := runLoop_some_inv p v (fun s =>
      s.month_count = s.history.length ∧
      s.total_interest = (s.history.map MonthRecord.monthly_interest).sum)
    ?_ fuel (initState p) res ⟨rfl, rfl⟩ hres
  · refine ⟨?_, ?_, ?_⟩
    · rw [show simulateCore p v fuel = some res from hres]
      exact key.1
    · rw [show simulateCore p v fuel = some res from hres]
      exact key.2
    · rw [calculate_mortgage_savings,
        show simulateCore p v fuel = some res from hres]
      rfl
  · intro s hpos hP
    obtain ⟨h1, h2⟩ := hP
    constructor
    · rw [stepOnce_month, stepOnce_history, List.length_append, h1]
      rfl
    · rw [stepOnce_total_interest, stepOnce_history, List.map_append,
        List.sum_append, h2]
      simp

/-- C9 witness: the theorem applied at a concrete finished run. -/
theorem claim_c9_witness :
    (simulateCore c6params false 10).isSome = true ∧
    (monthsOr0 (simulateCore c6params false 10) =
      (historyOr (simulateCore c6params false 10)).length ∧
    (interestOr0 (simulateCore c6params false 10) : ℚ) =
      ((historyOr (simulateCore c6params false 10)).map
        MonthRecord.monthly_interest).sum ∧
    savedOr0 (calculate_mortgage_savings c6params false 10) =
      original_total_interest c6params -
        (interestOr0 (simulateCore c6params false 10) : ℝ)) := by
  have hsome : (simulateCore c6params false 10).isSome = true := by
    apply runLoop_isSome_of_fuel c6params false ?_ ?_ 10 (initState c6params)
      (le_refl _)
    · show c6params.initial_principal ≤ _
      norm_num [c6params, monthly_rate]
    · constructor <;> norm_num [c6params]
    · show c6params.initial_principal * monthly_rate c6params <
        c6params.monthly_payment
      norm_num [c6params, monthly_rate]
  exact ⟨hsome, claim_c9 c6params false 10 hsome⟩

lemma runLoop_proj_eq (p : LoanParams) (v1 v2 : Bool) :
    ∀ (fuel : ℕ) (s t : SimState),
      s.current_principal = t.current_principal →
      s.total_interest = t.total_interest →
      s.month_count = t.month_count →
      s.prepayment_month = t.prepayment_month →
      s.history = t.history →
      (runLoop p v1 fuel s).map
          (fun u => (u.month_count, u.total_interest, u.history)) =
        (runLoop p v2 fuel t).map
          (fun u => (u.month_count, u.total_interest, u.history)) := by
  intro fuel
  induction fuel with
  | zero =>
    intro s t h1 h2 h3 h4 h5
    by_cases hs : 0 < s.current_principal
    · rw [runLoop, runLoop, if_pos hs, if_pos (h1 ▸ hs)]
    · rw [runLoop, runLoop, if_neg hs, if_neg (h1 ▸ hs)]
      simp [h2, h3, h5]
  | succ n ih =>
    intro s t h1 h2 h3 h4 h5
    by_cases hs : 0 < s.current_principal
    · rw [runLoop, runLoop, if_pos hs, if_pos (h1 ▸ hs)]
      apply ih
      · rw [stepOnce_principal, stepOnce_principal, h1, h3, h4]
      · rw [stepOnce_total_interest, stepOnce_total_interest, h1, h2]
      · rw [stepOnce_month, stepOnce_month, h3]
      · show (prepayApplied p (s.month_count + 1) s.prepayment_month).2 = _
        rw [h3, h4]
        rfl
      · rw [stepOnce_history, stepOnce_history, h5, h3,
          stepOnce_principal, stepOnce_principal, h1, h3, h4]
    · rw [runLoop, runLoop, if_neg hs, if_neg (h1 ▸ hs)]
      simp [h2, h3, h5]

/-- C10 (confirmed): the `verbose` flag only controls the inline
`st.write` echo; the returned result (total months, total interest,
interest saved, history) is identical for `verbose = True` and
`verbose = False`. -/
theorem claim_c10 (p : LoanParams) (fuel : ℕ) :
    calculate_mortgage_savings p true fuel =
      calculate_mortgage_savings p false fuel := by
  have h := runLoop_proj_eq p true false fuel (initState p) (initState p)
    rfl rfl rfl rfl rfl
  unfold calculate_mortgage_savings simulateCore
  rcases ho1 : runLoop p true fuel (initState p) with _ | s <;>
    rcases ho2 : runLoop p false fuel (initState p) with _ | t
  · rfl
  · rw [ho1, ho2] at h
    simp at h
  · rw [ho1, ho2] at h
    simp at h
  · rw [ho1, ho2] at h
    simp only [Option.map_some', Option.some.injEq, Prod.mk.injEq] at h
    obtain ⟨hm, hti, hh⟩ := h
    simp only [Option.map_some', Option.some.injEq]
    rw [hm, hti, hh]

lemma original_total_interest_zero_principal (M r a : ℚ) (freq : PrepayFreq)
    (hM : 0 < M) :
    original_total_interest ⟨0, M, r, a, freq⟩ = 0 := by
  have hMR : ((M : ℚ) : ℝ) ≠ 0 := by
    exact_mod_cast ne_of_gt hM
  unfold original_total_interest nper
  by_cases hr0 : ((monthly_rate ⟨0, M, r, a, freq⟩ : ℚ) : ℝ) = 0
  · rw [if_pos hr0]
    norm_num
  · rw [if_neg hr0]
    push_cast
    simp [div_self hMR]

/-- C7 (confirmed): with `initial_principal = 0` (and a positive payment),
the loop body never runs: the call returns `total_months = 0`,
`total_interest = 0`, `interest_saved = 0` and an empty `history`. -/
theorem claim_c7 (M r a : ℚ) (freq : PrepayFreq) (v : Bool) (fuel : ℕ)
    (hM : 0 < M) :
    calculate_mortgage_savings ⟨0, M, r, a, freq⟩ v fuel =
      some ⟨0, 0, 0, []⟩ := by
  have hcore : simulateCore ⟨0, M, r, a, freq⟩ v fuel =
      some (initState ⟨0, M, r, a, freq⟩) := by
    apply runLoop_of_nonpos
    norm_num [initState]
  rw [calculate_mortgage_savings, hcore]
  simp only [Option.map_some', Option.some.injEq]
  have horig := original_total_interest_zero_principal M r a freq hM
  show (⟨0, 0, original_total_interest ⟨0, M, r, a, freq⟩ - ((0 : ℚ) : ℝ), []⟩ :
    SimResult) = ⟨0, 0, 0, []⟩
  rw [horig]
  norm_num

/-- C7 witness: the theorem applied at a concrete zero-principal input. -/
theorem claim_c7_witness :
    (0 : ℚ) < wZero.monthly_payment ∧
      calculate_mortgage_savings wZero true 7 = some ⟨0, 0, 0, []⟩ :=
  ⟨by norm_num [wZero], claim_c7 60 5 7 PrepayFreq.monthly true 7 (by norm_num)⟩

lemma runLoop_mono_start (p : LoanParams) (v : Bool)
    (hrm : 0 ≤ monthly_rate p) :
    ∀ fuel s res, runLoop p v fuel s = some res →
      s.month_count ≤ res.month_count ∧
        s.total_interest ≤ res.total_interest := by
  intro fuel
  induction fuel with
  | zero =>
    intro s res h
    by_cases hs : 0 < s.current_principal
    · simp [runLoop, hs] at h
    · simp [runLoop, hs] at h
      rw [h]
      exact ⟨le_refl _, le_refl _⟩
  | succ n ih =>
    intro s res h
    by_cases hs : 0 < s.current_principal
    · simp only [runLoop, if_pos hs] at h
      obtain ⟨h1, h2⟩ := ih _ res h
      rw [stepOnce_month] at h1
      rw [stepOnce_total_interest] at h2
      have : 0 ≤ s.current_principal * monthly_rate p :=
        mul_nonneg (le_of_lt hs) hrm
      exact ⟨by omega, by linarith⟩
    · simp [runLoop, hs] at h
      rw [h]
      exact ⟨le_refl _, le_refl _⟩

lemma prepayApplied_snd_update (p : LoanParams) (a : ℚ) (m pm : ℕ) :
    (prepayApplied { p with prepayment_amount := a } m pm).2 =
      (prepayApplied p m pm).2 := by
  cases hf : p.prepayment_freq <;> simp [prepayApplied, hf]
  split <;> rfl

lemma prepayApplied_fst_update_mono (p : LoanParams) (a : ℚ) (m pm : ℕ)
    (hab : p.prepayment_amount ≤ a) :
    (prepayApplied p m pm).1 ≤
      (prepayApplied { p with prepayment_amount := a } m pm).1 := by
  cases hf : p.prepayment_freq <;> simp [prepayApplied, hf]
  · exact hab
  · split <;> simp [hab]

lemma runLoop_prepay_mono (p : LoanParams) (a : ℚ) (v : Bool)
    (hrm : 0 ≤ monthly_rate p) (hab : p.prepayment_amount ≤ a) :
    ∀ (fuel : ℕ) (s t : SimState), s.month_count = t.month_count →
      s.prepayment_month = t.prepayment_month →
      s.current_principal ≤ t.current_principal →
      s.total_interest ≤ t.total_interest →
      ∀ res, runLoop p v fuel t = some res →
        ∃ res2, runLoop { p with prepayment_amount := a } v fuel s = some res2 ∧
          res2.month_count ≤ res.month_count ∧
          res2.total_interest ≤ res.total_interest := by
  intro fuel
  induction fuel with
  | zero =>
    intro s t hm hpm hsp hti res hres
    by_cases ht : 0 < t.current_principal
    · simp [runLoop, ht] at hres
    · simp [runLoop, ht] at hres
      have hsnp : ¬ 0 < s.current_principal :=
        not_lt.mpr (le_trans hsp (not_lt.mp ht))
      rw [runLoop_of_nonpos _ v 0 s hsnp]
      exact ⟨s, rfl, by rw [← hres, hm], by rw [← hres]; exact hti⟩
  | succ n ih =>
    intro s t hm hpm hsp hti res hres
    by_cases ht : 0 < t.current_principal
    · by_cases hsP : 0 < s.current_principal
      · have hres' := hres
        simp only [runLoop, if_pos ht] at hres'
        simp only [runLoop, if_pos hsP]
        apply ih (stepOnce { p with prepayment_amount := a } v s)
          (stepOnce p v t) ?_ ?_ ?_ ?_ res hres'
        · rw [stepOnce_month, stepOnce_month, hm]
        · show (prepayApplied { p with prepayment_amount := a }
              (s.month_count + 1) s.prepayment_month).2 = _
          rw [prepayApplied_snd_update, hm, hpm]
          rfl
        · rw [stepOnce_principal, stepOnce_principal]
          have hr1 : (0 : ℚ) ≤ 1 + monthly_rate p := by linarith
          have hmul : s.current_principal *
              (1 + monthly_rate { p with prepayment_amount := a }) ≤
              t.current_principal * (1 + monthly_rate p) :=
            mul_le_mul_of_nonneg_right hsp hr1
          have hA := prepayApplied_fst_update_mono p a (t.month_count + 1)
            t.prepayment_month hab
          apply max_le_max _ (le_refl (0 : ℚ))
          rw [hm, hpm]
          have hMeq : ({ p with prepayment_amount := a } :
              LoanParams).monthly_payment = p.monthly_payment := rfl
          rw [hMeq]
          linarith
        · rw [stepOnce_total_interest, stepOnce_total_interest]
          have : s.current_principal *
              monthly_rate { p with prepayment_amount := a } ≤
              t.current_principal * monthly_rate p :=
            mul_le_mul_of_nonneg_right hsp hrm
          linarith
      · rw [runLoop_of_nonpos _ v _ s hsP]
        obtain ⟨h1, h2⟩ := runLoop_mono_start p v hrm (n + 1) t res hres
        exact ⟨s, rfl, by omega, le_trans hti h2⟩
    · simp [runLoop, ht] at hres
      have hsnp : ¬ 0 < s.current_principal :=
        not_lt.mpr (le_trans hsp (not_lt.mp ht))
      rw [runLoop_of_nonpos _ v _ s hsnp]
      exact ⟨s, rfl, by rw [← hres, hm], by rw [← hres]; exact hti⟩

/-- C5 (amended): raising the prepayment amount never lengthens the loan
nor increases the loop's total interest — in particular a positive
prepayment finishes no later and accrues no more interest than the
zero-prepayment run.  (`interest_saved ≥ 0` itself fails: see the
counterexample.) -/
theorem claim_c5 (p : LoanParams) (a : ℚ) (v : Bool) (fuel : ℕ)
    (hr : 0 ≤ p.annual_rate) (hab : p.prepayment_amount ≤ a)
    (hs : (simulateCore p v fuel).isSome = true) :
    (simulateCore { p with prepayment_amount := a } v fuel).isSome = true ∧
    monthsOr0 (simulateCore { p with prepayment_amount := a } v fuel) ≤
      monthsOr0 (simulateCore p v fuel) ∧
    interestOr0 (simulateCore { p with prepayment_amount := a } v fuel) ≤
      interestOr0 (simulateCore p v fuel) := by
  have hrm : 0 ≤ monthly_rate p := monthly_rate_nonneg p hr
  obtain ⟨res, hres⟩ := Option.isSome_iff_exists.mp hs
  obtain ⟨res2, hres2, hm2, hi2⟩ := runLoop_prepay_mono p a v hrm hab fuel
    (initState { p with prepayment_amount := a }) (initState p)
    rfl rfl (le_refl _) (le_refl _) res hres
  rw [show simulateCore p v fuel = some res from hres]
  rw [show simulateCore { p with prepayment_amount := a } v fuel = some res2
    from hres2]
  exact ⟨rfl, hm2, hi2⟩

lemma log_six_ratio_lt : Real.log 6 / Real.log (3 / 2) < 89 / 20 := by
  have h32 : (0 : ℝ) < Real.log (3 / 2) := Real.log_pos (by norm_num)
  rw [div_lt_iff₀ h32]
  have hpow : ((6 : ℝ)) ^ (20 : ℕ) < ((3 : ℝ) / 2) ^ (89 : ℕ) := by
    rw [div_pow]
    rw [lt_div_iff₀ (by positivity)]
    norm_num
  have hlog := Real.log_lt_log (by positivity) hpow
  rw [Real.log_pow, Real.log_pow] at hlog
  push_cast at hlog
  linarith

lemma original_c56_lt (a : ℚ) (freq : PrepayFreq) :
    original_total_interest ⟨100, 60, 600, a, freq⟩ < 167 := by
  unfold original_total_interest nper
  have hr : ((monthly_rate ⟨100, 60, 600, a, freq⟩ : ℚ) : ℝ) = 1 / 2 := by
    norm_num [monthly_rate]
  rw [hr]
  rw [if_neg (by norm_num)]
  have h6 : ((60 : ℚ) : ℝ) / (((60 : ℚ) : ℝ) - ((100 : ℚ) : ℝ) * (1 / 2)) =
      (6 : ℝ) := by
    push_cast
    norm_num
  push_cast
  norm_num
  have hlt := log_six_ratio_lt
  linarith

unseal Rat.mul Rat.inv Rat.add Rat.sub in
/-- C5 counterexample: at principal 100, payment 60, annual rate 600 %,
prepayment 0.01 monthly — a valid amortizing input with strictly positive
prepayment — the returned `interest_saved` is negative: the loop's total
interest (168.043125) exceeds the analytic baseline (≈ 165.14). -/
theorem claim_c5_counterexample :
    (calculate_mortgage_savings c5params false 10).isSome = true ∧
    savedOr0 (calculate_mortgage_savings c5params false 10) < 0 := by
  have hsome : (simulateCore c5params false 10).isSome = true := by decide
  obtain ⟨s, hs⟩ := Option.isSome_iff_exists.mp hsome
  have hti : s.total_interest = 268869 / 1600 := by
    have h := show interestOr0 (simulateCore c5params false 10) =
      268869 / 1600 by decide
    rw [hs] at h
    exact h
  constructor
  · unfold calculate_mortgage_savings
    rw [hs]
    rfl
  · unfold calculate_mortgage_savings
    rw [hs]
    show original_total_interest c5params - (s.total_interest : ℝ) < 0
    rw [hti]
    have horig : original_total_interest c5params < 167 :=
      original_c56_lt (1 / 100) PrepayFreq.monthly
    push_cast
    linarith

unseal Rat.mul Rat.inv Rat.add Rat.sub in
/-- C5 witness: the amended monotonicity theorem applied at a concrete
input, comparing prepayment 0 with prepayment 1. -/
theorem claim_c5_witness :
    ((0 : ℚ) ≤ wSmall.annual_rate ∧ wSmall.prepayment_amount ≤ 1 ∧
      (simulateCore wSmall false 5).isSome = true) ∧
    ((simulateCore { wSmall with prepayment_amount := 1 } false 5).isSome =
        true ∧
      monthsOr0 (simulateCore { wSmall with prepayment_amount := 1 } false 5) ≤
        monthsOr0 (simulateCore wSmall false 5) ∧
      interestOr0 (simulateCore { wSmall with prepayment_amount := 1 } false 5) ≤
        interestOr0 (simulateCore wSmall false 5)) := by
  have h1 : (0 : ℚ) ≤ wSmall.annual_rate := by norm_num [wSmall]
  have h2 : wSmall.prepayment_amount ≤ 1 := by norm_num [wSmall]
  have h3 : (simulateCore wSmall false 5).isSome = true := by decide
  exact ⟨⟨h1, h2, h3⟩, claim_c5 wSmall 1 false 5 h1 h2 h3⟩

lemma rawP_succ (p : LoanParams) (n : ℕ) :
    rawP p (n + 1) = rawP p n * (1 + monthly_rate p) - p.monthly_payment := rfl

lemma rawP_closed (p : LoanParams) (hr : monthly_rate p ≠ 0) (n : ℕ) :
    rawP p n = p.monthly_payment / monthly_rate p -
      (p.monthly_payment / monthly_rate p - p.initial_principal) *
        (1 + monthly_rate p) ^ n := by
  induction n with
  | zero =>
    show p.initial_principal = _
    rw [pow_zero, mul_one]
    ring
  | succ k ih =>
    rw [rawP_succ, ih]
    field_simp
    ring

lemma rawP_zero_rate (p : LoanParams) (hr : monthly_rate p = 0) (n : ℕ) :
    rawP p n = p.initial_principal - (n : ℚ) * p.monthly_payment := by
  induction n with
  | zero => show p.initial_principal = _; push_cast; ring
  | succ k ih =>
    rw [rawP_succ, ih, hr]
    push_cast
    ring

lemma rawP_pos_iff (p : LoanParams) (hr : 0 < monthly_rate p)
    (ham : Amortizing p) (n : ℕ) :
    0 < rawP p n ↔ (1 + monthly_rate p) ^ n <
      p.monthly_payment /
        (p.monthly_payment - p.initial_principal * monthly_rate p) := by
  have hd : 0 < p.monthly_payment - p.initial_principal * monthly_rate p :=
    sub_pos.mpr ham
  have hK : 0 < p.monthly_payment / monthly_rate p - p.initial_principal := by
    rw [sub_pos, lt_div_iff₀ hr]
    exact ham
  have key : (p.monthly_payment / monthly_rate p) /
      (p.monthly_payment / monthly_rate p - p.initial_principal) =
      p.monthly_payment /
        (p.monthly_payment - p.initial_principal * monthly_rate p) := by
    rw [div_eq_div_iff (ne_of_gt hK) (ne_of_gt hd)]
    have hrne : monthly_rate p ≠ 0 := ne_of_gt hr
    field_simp
    exact Or.inl (by ring)
  rw [rawP_closed p (ne_of_gt hr) n, sub_pos, mul_comm, ← lt_div_iff₀ hK, key]

/-- C6 (amended): with zero prepayment, under the validation constraints
and the amortizing precondition and a positive principal, `total_months`
equals the analytic baseline period `nper` rounded up to the next whole
month.  (The companion counterexample shows `total_interest` does NOT
equal the analytic `baseline_total_interest` within any floating-point
tolerance.) -/
theorem claim_c6 (p : LoanParams) (v : Bool) (fuel : ℕ)
    (hv : ValidParams p) (ham : Amortizing p)
    (hpre : p.prepayment_amount = 0) (hp0 : 0 < p.initial_principal)
    (hs : (simulateCore p v fuel).isSome = true) :
    monthsOr0 (simulateCore p v fuel) =
      Nat.ceil (nper ((monthly_rate p : ℚ) : ℝ) ((p.monthly_payment : ℚ) : ℝ)
        ((p.initial_principal : ℚ) : ℝ)) := by
  obtain ⟨res, hres⟩ := Option.isSome_iff_exists.mp hs
  have hinit : (initState p).current_principal = max (rawP p 0) 0 := by
    show p.initial_principal = max p.initial_principal 0
    rw [max_eq_left (le_of_lt hp0)]
  obtain ⟨hN1, _hN2, hN3⟩ := runLoop_rawP_char p v hpre fuel 0 (initState p) res
    rfl hinit hres
  rw [show simulateCore p v fuel = some res from hres]
  show res.month_count = _
  have hM : 0 < p.monthly_payment := hv.2.1
  have hN0 : res.month_count ≠ 0 := by
    intro h
    rw [h] at hN1
    have h0 : rawP p 0 = p.initial_principal := rfl
    rw [h0] at hN1
    linarith
  by_cases hr0 : monthly_rate p = 0
  · have hcast0 : ((monthly_rate p : ℚ) : ℝ) = 0 := by rw [hr0]; norm_num
    simp only [nper]
    rw [if_pos hcast0]
    symm
    rw [Nat.ceil_eq_iff hN0]
    have hlow := hN3 (res.month_count - 1) (by omega) (by omega)
    rw [rawP_zero_rate p hr0] at hlow hN1
    constructor
    · have hq : ((res.month_count - 1 : ℕ) : ℚ) <
          p.initial_principal / p.monthly_payment := by
        rw [lt_div_iff₀ hM]
        linarith
      exact_mod_cast hq
    · have hq : p.initial_principal / p.monthly_payment ≤
          (res.month_count : ℚ) := by
        rw [div_le_iff₀ hM]
        linarith
      exact_mod_cast hq
  · have hrpos : 0 < monthly_rate p :=
      lt_of_le_of_ne (monthly_rate_nonneg p hv.2.2.1) (Ne.symm hr0)
    have hcast0 : ((monthly_rate p : ℚ) : ℝ) ≠ 0 := by
      exact_mod_cast hr0
    simp only [nper]
    rw [if_neg hcast0]
    have hup : p.monthly_payment /
        (p.monthly_payment - p.initial_principal * monthly_rate p) ≤
        (1 + monthly_rate p) ^ res.month_count := by
      by_contra hc
      push_neg at hc
      have := (rawP_pos_iff p hrpos ham res.month_count).mpr hc
      linarith
    have hlow : (1 + monthly_rate p) ^ (res.month_count - 1) <
        p.monthly_payment /
          (p.monthly_payment - p.initial_principal * monthly_rate p) :=
      (rawP_pos_iff p hrpos ham _).mp
        (hN3 (res.month_count - 1) (by omega) (by omega))
    have hd : 0 < p.monthly_payment - p.initial_principal * monthly_rate p :=
      sub_pos.mpr ham
    have hQpos : (0 : ℚ) < p.monthly_payment /
        (p.monthly_payment - p.initial_principal * monthly_rate p) :=
      div_pos hM hd
    have hgoalQ : ((p.monthly_payment : ℚ) : ℝ) /
        (((p.monthly_payment : ℚ) : ℝ) -
          ((p.initial_principal : ℚ) : ℝ) * ((monthly_rate p : ℚ) : ℝ)) =
        ((p.monthly_payment /
          (p.monthly_payment - p.initial_principal * monthly_rate p) : ℚ) : ℝ) := by
      push_cast
      rfl
    rw [hgoalQ]
    have hlogr : 0 < Real.log (1 + ((monthly_rate p : ℚ) : ℝ)) := by
      apply Real.log_pos
      have h1q : (1 : ℚ) < 1 + monthly_rate p := by linarith
      exact_mod_cast h1q
    have hupR : ((p.monthly_payment /
        (p.monthly_payment - p.initial_principal * monthly_rate p) : ℚ) : ℝ) ≤
        (1 + ((monthly_rate p : ℚ) : ℝ)) ^ res.month_count := by
      have hcast : (((1 + monthly_rate p) ^ res.month_count : ℚ) : ℝ) =
          (1 + ((monthly_rate p : ℚ) : ℝ)) ^ res.month_count := by
        push_cast
        rfl
      rw [← hcast]
      exact_mod_cast hup
    have hlowR : (1 + ((monthly_rate p : ℚ) : ℝ)) ^ (res.month_count - 1) <
        ((p.monthly_payment /
          (p.monthly_payment - p.initial_principal * monthly_rate p) : ℚ) : ℝ) := by
      have hcast : (((1 + monthly_rate p) ^ (res.month_count - 1) : ℚ) : ℝ) =
          (1 + ((monthly_rate p : ℚ) : ℝ)) ^ (res.month_count - 1) := by
        push_cast
        rfl
      rw [← hcast]
      exact_mod_cast hlow
    symm
    rw [Nat.ceil_eq_iff hN0]
    constructor
    · rw [lt_div_iff₀ hlogr]
      have hll := Real.log_lt_log (by positivity) hlowR
      rw [Real.log_pow] at hll
      exact hll
    · rw [div_le_iff₀ hlogr]
      have hQR0 : (0 : ℝ) < ((p.monthly_payment /
          (p.monthly_payment - p.initial_principal * monthly_rate p) : ℚ) : ℝ) := by
        exact_mod_cast hQpos
      have hle := Real.log_le_log hQR0 hupR
      rw [Real.log_pow] at hle
      exact hle

unseal Rat.mul Rat.inv Rat.add Rat.sub in
/-- C6 counterexample: at principal 100, payment 60, annual rate 600 %,
zero prepayment, the loop's `total_interest` is 168.125 while the
analytic `baseline_total_interest` is below 167 — they differ by more
than 1, far beyond any floating-point tolerance. -/
theorem claim_c6_counterexample :
    (simulateCore c6params false 10).isSome = true ∧
    original_total_interest c6params + 1 <
      ((interestOr0 (simulateCore c6params false 10) : ℚ) : ℝ) := by
  have hsome : (simulateCore c6params false 10).isSome = true := by decide
  have hti : interestOr0 (simulateCore c6params false 10) = 1345 / 8 := by
    decide
  refine ⟨hsome, ?_⟩
  rw [hti]
  have horig : original_total_interest c6params < 167 :=
    original_c56_lt 0 PrepayFreq.monthly
  push_cast
  linarith

unseal Rat.mul Rat.inv Rat.add Rat.sub in
/-- C6 witness: the amended theorem applied at the concrete run with
principal 100, payment 60, annual rate 600 %, zero prepayment. -/
theorem claim_c6_witness :
    (ValidParams c6params ∧ Amortizing c6params ∧
      c6params.prepayment_amount = 0 ∧
      (0 : ℚ) < c6params.initial_principal ∧
      (simulateCore c6params false 10).isSome = true) ∧
    monthsOr0 (simulateCore c6params false 10) =
      Nat.ceil (nper ((monthly_rate c6params : ℚ) : ℝ)
        ((c6params.monthly_payment : ℚ) : ℝ)
        ((c6params.initial_principal : ℚ) : ℝ)) := by
  have hv : ValidParams c6params := by constructor <;> norm_num [c6params]
  have ham : Amortizing c6params := by
    show c6params.initial_principal * monthly_rate c6params <
      c6params.monthly_payment
    norm_num [c6params, monthly_rate]
  have hpre : c6params.prepayment_amount = 0 := rfl
  have hp0 : (0 : ℚ) < c6params.initial_principal := by norm_num [c6params]
  have hsome : (simulateCore c6params false 10).isSome = true := by decide
  exact ⟨⟨hv, ham, hpre, hp0, hsome⟩,
    claim_c6 c6params false 10 hv ham hpre hp0 hsome⟩
